import Mathlib

/-!
# Math blocks (`blocks/math.js`)

A shallow embedding of the block descriptors of `blocks/math.js`: the type
inference hooks (`getType`, `getVarType`), the shape mutation of
`math_number_property` (`updateShape_`, `mutationToDom`, `domToMutation`) and
the mode-dependent tooltip tables.

JavaScript values that may be `null`/`undefined` are `Option String`
(`none` is `null`/`undefined`); a method takes the block and returns the block
it leaves behind, next to its result; a method that can throw returns
`Except`. A text is a `String`; the patterns of this file accept ASCII digits
and the dot only, so a text is rejected at its first other character whatever
its encoding.
-/

namespace Blockly

/-! ## Regular expressions, as far as the two literals of `math_number` need -/

/-- One item of a character class: a range `a-b` or a single character. -/
inductive ClassItem where
  | range (lo hi : Char)
  | lit (c : Char)
  deriving Repr, DecidableEq

/-- A pattern atom consuming exactly one character: the escape `\d` or a
bracketed class `[...]`. -/
inductive Atom where
  | digit
  | cls (items : List ClassItem)
  deriving Repr, DecidableEq

/-- A term of a pattern: the assertions `^` and `$` (no multiline flag), an
atom, or an atom under the greedy quantifiers `*` and `+`. -/
inductive Term where
  | bos
  | eos
  | one (a : Atom)
  | star (a : Atom)
  | plus (a : Atom)
  deriving Repr, DecidableEq

/-- Does the class item accept the character (ranges compare code points). -/
def ClassItem.test : ClassItem → Char → Bool
  | .range lo hi, c => decide (lo.val.toNat ≤ c.val.toNat) && decide (c.val.toNat ≤ hi.val.toNat)
  | .lit d, c => c == d

/-- Does the atom accept the character; `\d` is the ten characters `0`..`9`. -/
def Atom.test : Atom → Char → Bool
  | .digit, c => decide (48 ≤ c.val.toNat) && decide (c.val.toNat ≤ 57)
  | .cls items, c => items.any (fun i => i.test c)

/-- Greedy repetition of an atom with backtracking: consume one more accepted
character if the rest of the pattern then matches, otherwise stop here and
hand over to the continuation `k`. The flag says whether the position is the
start of the input. -/
def starLoop (a : Atom) (k : Bool → List Char → Bool) : Bool → List Char → Bool
  | st, [] => k st []
  | st, c :: s => (a.test c && starLoop a k false s) || k st (c :: s)

/-- Match a pattern (a sequence of terms) at the current position; the match
need not reach the end of the input unless `$` demands it. -/
def matchFrom : List Term → Bool → List Char → Bool
  | [], _, _ => true
  | .bos :: ts, st, s => st && matchFrom ts st s
  | .eos :: ts, st, s => s.isEmpty && matchFrom ts st s
  | .one a :: ts, _, s =>
    match s with
    | [] => false
    | c :: s' => a.test c && matchFrom ts false s'
  | .star a :: ts, st, s => starLoop a (fun st' s' => matchFrom ts st' s') st s
  | .plus a :: ts, _, s =>
    match s with
    | [] => false
    | c :: s' => a.test c && starLoop a (fun st' s' => matchFrom ts st' s') false s'

/-- Try the pattern at the current position, then at every later one. -/
def testFrom (r : List Term) : Bool → List Char → Bool
  | st, [] => matchFrom r st []
  | st, c :: s => matchFrom r st (c :: s) || testFrom r false s

/-- The method `RegExp.prototype.test` for a pattern without flags: is there a match
starting at some index of the string. -/
def RegExp.test (r : List Term) (s : String) : Bool :=
  testFrom r true s.toList

/-- String conversion of a nullable string argument (`null` becomes `"null"`). -/
def toStr : Option String → String
  | some s => s
  | none => "null"

/-! ## Blocks -/

/-- A named, editable field of a block with its current value. -/
structure Field where
  name : String
  value : String
  deriving Repr, DecidableEq

/-- An input of a block: its name, its connection check (`none` for a dummy
input or an unchecked socket) and the fields in its row. -/
structure Input where
  name : String
  check : Option String
  fieldRow : List Field
  deriving Repr, DecidableEq

/-- The mutable state of one block instance. -/
structure Block where
  inputList : List Input
  inputsInline : Bool
  outputCheck : Option String
  warningText : Option String
  varType : Option String
  deriving Repr, DecidableEq

deriving instance DecidableEq for Except

/-- A block before its `init` ran. -/
def Block.empty : Block :=
  { inputList := [], inputsInline := false, outputCheck := none,
    warningText := none, varType := none }

/-- Modelled from the spec: `Block.getFieldValue` of the host editor (not in
this file): the value of the first field with the name, `null` without one. -/
def Block.getFieldValue (b : Block) (name : String) : Option String :=
  ((b.inputList.flatMap (fun i => i.fieldRow)).find? (fun f => f.name == name)).map (fun f => f.value)

/-- Set the value of the first field with the name in a row of fields. -/
def setInRow (name newValue : String) : List Field → Option (List Field)
  | [] => none
  | f :: fs =>
    if f.name == name then some ({ f with value := newValue } :: fs)
    else (setInRow name newValue fs).map (fun fs' => f :: fs')

/-- Set the value of the first field with the name among the inputs. -/
def setInInputs (name newValue : String) : List Input → List Input
  | [] => []
  | i :: is =>
    match setInRow name newValue i.fieldRow with
    | some row => { i with fieldRow := row } :: is
    | none => i :: setInInputs name newValue is

/-- Modelled from the spec: `Block.setFieldValue` of the host editor (not in
this file): the first field with the name takes the new value. -/
def Block.setFieldValue (b : Block) (newValue name : String) : Block :=
  { b with inputList := setInInputs name newValue b.inputList }

/-- Modelled from the spec: `Block.getInput` of the host editor (not in this
file): the first input with the name, `null` without one. -/
def Block.getInput (b : Block) (name : String) : Option Input :=
  b.inputList.find? (fun i => i.name == name)

/-- Modelled from the spec: `Block.appendValueInput` of the host editor (not in
this file), with the chained `setCheck`: a new socket at the end of the
input list. -/
def Block.appendValueInput (b : Block) (name : String) (check : Option String) : Block :=
  { b with inputList := b.inputList ++ [{ name := name, check := check, fieldRow := [] }] }

/-- Modelled from the spec: `Block.appendDummyInput` of the host editor (not in
this file), with the chained `appendField` calls: an unnamed input without a
socket that carries the fields. -/
def Block.appendDummyInput (b : Block) (fields : List Field) : Block :=
  { b with inputList := b.inputList ++ [{ name := "", check := none, fieldRow := fields }] }

/-- Remove the first input with the name from a list, `none` without one. -/
def removeFirst (name : String) : List Input → Option (List Input)
  | [] => none
  | i :: is =>
    if i.name == name then some is
    else (removeFirst name is).map (fun is' => i :: is')

/-- Modelled from the spec: `Block.removeInput` of the host editor (not in this
file): the first input with the name is taken out; without one the call
raises. -/
def Block.removeInput (b : Block) (name : String) : Except String Block :=
  match removeFirst name b.inputList with
  | some is => .ok { b with inputList := is }
  | none => .error ("Input " ++ name ++ " not found.")

/-- Modelled from the spec: `Block.setWarningText` of the host editor (not in
this file): the block shows the text, `null` clears it. -/
def Block.setWarningText (b : Block) (text : Option String) : Block :=
  { b with warningText := text }

/-- Modelled from the spec: the value a new `FieldDropdown` of the host editor
(not in this file) starts with, the value of its first option. -/
def FieldDropdown (name : String) (options : List (Option String × String)) : Field :=
  { name := name, value := (options.head?.map Prod.snd).getD "" }

/-- Property read `obj[key]` on a table of nullable strings; a missing key
reads as `undefined`. -/
def property (obj : List (String × Option String)) (key : String) : Option String :=
  (obj.lookup key).bind id

/-- The message table of the host editor, `Blockly.Msg`; a missing message
reads as `undefined`. -/
abbrev Messages := String → Option String

/-- A DOM element, as far as the mutation fragment needs: tag and attributes. -/
structure Element where
  tagName : String
  attributes : List (String × String)
  deriving Repr, DecidableEq

/-- The call `document.createElement`. -/
def createElement (tagName : String) : Element :=
  { tagName := tagName, attributes := [] }

/-- The call `Element.setAttribute`: replaces the value of an attribute or
adds the attribute. -/
def Element.setAttribute (e : Element) (name value : String) : Element :=
  if e.attributes.any (fun a => a.1 == name) then
    { e with attributes := e.attributes.map (fun a => if a.1 == name then (name, value) else a) }
  else { e with attributes := e.attributes ++ [(name, value)] }

/-- The call `Element.getAttribute`: `null` without the attribute. -/
def Element.getAttribute (e : Element) (name : String) : Option String :=
  e.attributes.lookup name

/-- String conversion of a boolean argument. -/
def boolToStr : Bool → String
  | true => "true"
  | false => "false"

/-! ## `math_number` -/

namespace math_number

/-- The literal `/^\d+$/`. -/
def regExpInt : List Term := [.bos, .plus .digit, .eos]

/-- The literal `/^[0-9]*[.][0-9]+$/`. -/
def regExpFloat : List Term :=
  [.bos, .star (.cls [.range '0' '9']), .one (.cls [.lit '.']),
   .plus (.cls [.range '0' '9']), .eos]

/-- Block for numeric value: one dummy input with the text field `NUM`. -/
def init (b : Block) : Block :=
  { b with
    inputList := (b.appendDummyInput [{ name := "NUM", value := "0" }]).inputList
    outputCheck := some "Number" }

/-- Reads the numerical value from the block and assigns a type. -/
def getType (b : Block) : String × Block :=
  let numString := toStr (b.getFieldValue "NUM")
  if RegExp.test regExpInt numString then ("int", b)
  else if RegExp.test regExpFloat numString then ("float", b)
  else ("errornumber", b)

end math_number


/-! ## Blocks with a mode-dependent tooltip -/

/-- The tooltip closure shared by the four blocks: look the mode of the `OP`
field up in the table. -/
def tooltipOf (TOOLTIPS : List (String × Option String)) (thisBlock : Block) : Option String :=
  let mode := thisBlock.getFieldValue "OP"
  property TOOLTIPS (toStr mode)

/-- Build a tooltip table from the message each mode refers to. -/
def tableOf (Msg : Messages) (refs : List (String × String)) : List (String × Option String) :=
  refs.map (fun r => (r.1, Msg r.2))

namespace math_arithmetic

/-- The options of the `OP` dropdown: label and value. -/
def OPERATORS (Msg : Messages) : List (Option String × String) :=
  [(Msg "MATH_ADDITION_SYMBOL", "ADD"),
   (Msg "MATH_SUBTRACTION_SYMBOL", "MINUS"),
   (Msg "MATH_MULTIPLICATION_SYMBOL", "MULTIPLY"),
   (Msg "MATH_DIVISION_SYMBOL", "DIVIDE"),
   (Msg "MATH_POWER_SYMBOL", "POWER")]

/-- The message each key of `TOOLTIPS` refers to. -/
def TOOLTIP_MSG : List (String × String) :=
  [("ADD", "MATH_ARITHMETIC_TOOLTIP_ADD"),
   ("MINUS", "MATH_ARITHMETIC_TOOLTIP_MINUS"),
   ("MULTIPLY", "MATH_ARITHMETIC_TOOLTIP_MULTIPLY"),
   ("DIVIDE", "MATH_ARITHMETIC_TOOLTIP_DIVIDE"),
   ("POWER", "MATH_ARITHMETIC_TOOLTIP_POWER")]

/-- The table of the tooltip closure. -/
def TOOLTIPS (Msg : Messages) : List (String × Option String) := tableOf Msg TOOLTIP_MSG

/-- The tooltip closure. -/
def tooltip (Msg : Messages) (thisBlock : Block) : Option String := tooltipOf (TOOLTIPS Msg) thisBlock

end math_arithmetic

namespace math_single

/-- The options of the `OP` dropdown: label and value. -/
def OPERATORS (Msg : Messages) : List (Option String × String) :=
  [(Msg "MATH_SINGLE_OP_ROOT", "ROOT"),
   (Msg "MATH_SINGLE_OP_ABSOLUTE", "ABS"),
   (some "-", "NEG"),
   (some "ln", "LN"),
   (some "log10", "LOG10"),
   (some "e^", "EXP"),
   (some "10^", "POW10")]

/-- The message each key of `TOOLTIPS` refers to. -/
def TOOLTIP_MSG : List (String × String) :=
  [("ROOT", "MATH_SINGLE_TOOLTIP_ROOT"),
   ("ABS", "MATH_SINGLE_TOOLTIP_ABS"),
   ("NEG", "MATH_SINGLE_TOOLTIP_NEG"),
   ("LN", "MATH_SINGLE_TOOLTIP_LN"),
   ("LOG10", "MATH_SINGLE_TOOLTIP_LOG10"),
   ("EXP", "MATH_SINGLE_TOOLTIP_EXP"),
   ("POW10", "MATH_SINGLE_TOOLTIP_POW10")]

/-- The table of the tooltip closure. -/
def TOOLTIPS (Msg : Messages) : List (String × Option String) := tableOf Msg TOOLTIP_MSG

/-- The tooltip closure. -/
def tooltip (Msg : Messages) (thisBlock : Block) : Option String := tooltipOf (TOOLTIPS Msg) thisBlock

/-- Assigns a type to the block, all these operations are floats. -/
def getType (b : Block) : String × Block := ("float", b)

end math_single

namespace math_trig

/-- The options of the `OP` dropdown: label and value. -/
def OPERATORS (Msg : Messages) : List (Option String × String) :=
  [(Msg "MATH_TRIG_SIN", "SIN"),
   (Msg "MATH_TRIG_COS", "COS"),
   (Msg "MATH_TRIG_TAN", "TAN"),
   (Msg "MATH_TRIG_ASIN", "ASIN"),
   (Msg "MATH_TRIG_ACOS", "ACOS"),
   (Msg "MATH_TRIG_ATAN", "ATAN")]

/-- The message each key of `TOOLTIPS` refers to. -/
def TOOLTIP_MSG : List (String × String) :=
  [("SIN", "MATH_TRIG_TOOLTIP_SIN"),
   ("COS", "MATH_TRIG_TOOLTIP_COS"),
   ("TAN", "MATH_TRIG_TOOLTIP_TAN"),
   ("ASIN", "MATH_TRIG_TOOLTIP_ASIN"),
   ("ACOS", "MATH_TRIG_TOOLTIP_ACOS"),
   ("ATAN", "MATH_TRIG_TOOLTIP_ATAN")]

/-- The table of the tooltip closure. -/
def TOOLTIPS (Msg : Messages) : List (String × Option String) := tableOf Msg TOOLTIP_MSG

/-- The tooltip closure. -/
def tooltip (Msg : Messages) (thisBlock : Block) : Option String := tooltipOf (TOOLTIPS Msg) thisBlock

/-- Assigns a type to the block, all these operations are floats. -/
def getType (b : Block) : String × Block := ("float", b)

end math_trig

namespace math_on_list

/-- The options of the `OP` dropdown: label and value. -/
def OPERATORS (Msg : Messages) : List (Option String × String) :=
  [(Msg "MATH_ONLIST_OPERATOR_SUM", "SUM"),
   (Msg "MATH_ONLIST_OPERATOR_MIN", "MIN"),
   (Msg "MATH_ONLIST_OPERATOR_MAX", "MAX"),
   (Msg "MATH_ONLIST_OPERATOR_AVERAGE", "AVERAGE"),
   (Msg "MATH_ONLIST_OPERATOR_MEDIAN", "MEDIAN"),
   (Msg "MATH_ONLIST_OPERATOR_MODE", "MODE"),
   (Msg "MATH_ONLIST_OPERATOR_STD_DEV", "STD_DEV"),
   (Msg "MATH_ONLIST_OPERATOR_RANDOM", "RANDOM")]

/-- The message each key of `TOOLTIPS` refers to. -/
def TOOLTIP_MSG : List (String × String) :=
  [("SUM", "MATH_ONLIST_TOOLTIP_SUM"),
   ("MIN", "MATH_ONLIST_TOOLTIP_MIN"),
   ("MAX", "MATH_ONLIST_TOOLTIP_MAX"),
   ("AVERAGE", "MATH_ONLIST_TOOLTIP_AVERAGE"),
   ("MEDIAN", "MATH_ONLIST_TOOLTIP_MEDIAN"),
   ("MODE", "MATH_ONLIST_TOOLTIP_MODE"),
   ("STD_DEV", "MATH_ONLIST_TOOLTIP_STD_DEV"),
   ("RANDOM", "MATH_ONLIST_TOOLTIP_RANDOM")]

/-- The table of the tooltip closure. -/
def TOOLTIPS (Msg : Messages) : List (String × Option String) := tableOf Msg TOOLTIP_MSG

/-- The tooltip closure. -/
def tooltip (Msg : Messages) (thisBlock : Block) : Option String := tooltipOf (TOOLTIPS Msg) thisBlock

end math_on_list

/-! ## Blocks with a fixed type -/

/-- Assigns a type to the block, all these operations are floats. -/
def math_constant.getType (b : Block) : String × Block := ("float", b)

/-- Assigns a type to the block, round always returns a float. -/
def math_round.getType (b : Block) : String × Block := ("float", b)

/-- Assigns a type to the block, modulus only works on integers. -/
def math_modulo.getType (b : Block) : String × Block := ("int", b)

/-- Assigns a type to the block, always an int. -/
def math_random_int.getType (b : Block) : String × Block := ("int", b)

/-- Assigns a type to the block, always a float. -/
def math_random_float.getType (b : Block) : String × Block := ("float", b)

/-! ## `math_number_property` -/

namespace math_number_property

/-- The options of the `PROPERTY` dropdown: label and value. -/
def PROPERTIES (Msg : Messages) : List (Option String × String) :=
  [(Msg "MATH_IS_EVEN", "EVEN"),
   (Msg "MATH_IS_ODD", "ODD"),
   (Msg "MATH_IS_PRIME", "PRIME"),
   (Msg "MATH_IS_WHOLE", "WHOLE"),
   (Msg "MATH_IS_POSITIVE", "POSITIVE"),
   (Msg "MATH_IS_NEGATIVE", "NEGATIVE"),
   (Msg "MATH_IS_DIVISIBLE_BY", "DIVISIBLE_BY")]

/-- Block for checking a property of a number: the socket `NUMBER_TO_CHECK`
and a dummy input with the `PROPERTY` dropdown. -/
def init (Msg : Messages) (b : Block) : Block :=
  let b := b.appendValueInput "NUMBER_TO_CHECK" (some "Number")
  let dropdown := FieldDropdown "PROPERTY" (PROPERTIES Msg)
  let b := b.appendDummyInput [dropdown]
  { b with inputsInline := true, outputCheck := some "Boolean" }

/-- Modify this block to have (or not have) an input for 'is divisible by'. -/
def updateShape_ (divisorInput : Bool) (b : Block) : Except String Block :=
  let inputExists := b.getInput "DIVISOR"
  if divisorInput then
    if inputExists.isNone then .ok (b.appendValueInput "DIVISOR" (some "Number"))
    else .ok b
  else if inputExists.isSome then b.removeInput "DIVISOR"
  else .ok b

/-- The change handler of the `PROPERTY` dropdown. -/
def changeHandler (option : String) (sourceBlock_ : Block) : Except String Block :=
  let divisorInput := option == "DIVISIBLE_BY"
  updateShape_ divisorInput sourceBlock_

/-- Modelled from the spec: a selection in the `PROPERTY` dropdown, run by the
host editor (not in this file): the change handler runs, then the field takes
the selected option. -/
def select (option : String) (b : Block) : Except String Block :=
  (changeHandler option b).map (fun b' => b'.setFieldValue option "PROPERTY")

/-- A sequence of selections, one after the other. -/
def selectAll : List String → Block → Except String Block
  | [], b => .ok b
  | o :: os, b =>
    match select o b with
    | .ok b' => selectAll os b'
    | .error e => .error e

/-- Create XML to represent whether the 'divisorInput' should be present. -/
def mutationToDom (b : Block) : Element :=
  let container := createElement "mutation"
  let divisorInput := b.getFieldValue "PROPERTY" == some "DIVISIBLE_BY"
  container.setAttribute "divisor_input" (boolToStr divisorInput)

/-- Parse XML to restore the 'divisorInput'. -/
def domToMutation (xmlElement : Element) (b : Block) : Except String Block :=
  let divisorInput := xmlElement.getAttribute "divisor_input" == some "true"
  updateShape_ divisorInput b

/-- Assigns a type to the block, all these operations return booleans. -/
def getType (b : Block) : String × Block := ("boolean", b)

end math_number_property

/-! ## `math_change` -/

namespace math_change

/-- Block for adding to a variable in place: the socket `DELTA` with the
variable field `VAR` in its row, which starts with the name `item` (the labels
of the message, fields without a name, are left out); the member `varType`
starts with the value of the descriptor, `nonono`. -/
def init (item : String) (b : Block) : Block :=
  { b with
    inputList := b.inputList ++ [{ name := "DELTA", check := some "Number", fieldRow := [{ name := "VAR", value := item }] }]
    varType := some "nonono" }

/-- The loop `for (var name in existingVars)` of `getVarType` over the keys
still to visit: it stops at the first key that is the variable name and
stores the recorded type in the local `varType` and in the member. -/
def getVarType.loop (existingVars : List (String × Option String)) (varName : Option String) :
    List String → Option String × Block → Option String × Block
  | [], acc => acc
  | name :: names, (varType, b) =>
    if some name == varName then
      let varType := property existingVars (toStr varName)
      (varType, { b with varType := varType })
    else getVarType.loop existingVars varName names (varType, b)

/-- Finds the type of the variable selected in the drop down. Sets it to an
an integer if it has not been defined before. -/
def getVarType (existingVars : List (String × Option String)) (b : Block) : Option String × Block :=
  let varName := b.getFieldValue "VAR"
  let (varType, b) := getVarType.loop existingVars varName (existingVars.map Prod.fst) (none, b)
  if varType == none then
    (some "int", ({ b with varType := some "int" } : Block).setWarningText none)
  else if varType != some "int" && varType != some "float" then
    (varType, b.setWarningText (some ("This variable type has been previously set to a " ++
      toStr (property existingVars (toStr varName)) ++ " and it needs to be a number!")))
  else (varType, b.setWarningText none)

/-- Retrieves the type of the selected variable, defined at getVarType. -/
def getType (b : Block) : Option String × Block := (b.varType, b)

/-- A call the host makes on the block after `init`. -/
inductive Call where
  | getVarType (existingVars : List (String × Option String))
  | setFieldValue (newValue : String)

/-- Run the calls in order; the result is the block and the values the calls
of `getVarType` returned, the latest first. -/
def run : List Call → Block × List (Option String) → Block × List (Option String)
  | [], acc => acc
  | .getVarType existingVars :: cs, (b, rets) =>
    let r := math_change.getVarType existingVars b
    run cs (r.2, r.1 :: rets)
  | .setFieldValue newValue :: cs, (b, rets) =>
    run cs (b.setFieldValue newValue "VAR", rets)

end math_change


/-! ## The words of the spec for the two number formats -/

/-- One or more ASCII digits, whole string. -/
def IsIntText (s : String) : Prop :=
  s.toList ≠ [] ∧ ∀ c ∈ s.toList, c.isDigit = true

/-- Zero or more digits, a dot, one or more digits, whole string. -/
def IsFloatText (s : String) : Prop :=
  ∃ a b : List Char, s.toList = a ++ '.' :: b ∧ (∀ c ∈ a, c.isDigit = true) ∧
    b ≠ [] ∧ ∀ c ∈ b, c.isDigit = true

/-! ## Observations on a block and sample blocks -/

/-- The number of inputs named `DIVISOR`. -/
def divisorCount (b : Block) : Nat :=
  (b.inputList.filter (fun i => i.name == "DIVISOR")).length

/-- Is there an input named `DIVISOR`, as `getInput` sees it. -/
def hasDivisor (b : Block) : Bool :=
  (b.getInput "DIVISOR").isSome

/-- The inputs with another name than `DIVISOR`, in order. -/
def otherInputs (b : Block) : List Input :=
  b.inputList.filter (fun i => !(i.name == "DIVISOR"))

/-- A `math_number` block whose `NUM` field holds the text. -/
def numberBlock (text : String) : Block :=
  (math_number.init Block.empty).setFieldValue text "NUM"

/-- A message table that has no message at all. -/
def noMessages : Messages := fun _ => none

/-- A new `math_number_property` block. -/
def propertyBlock : Block := math_number_property.init noMessages Block.empty

/-- The mutation fragment `<mutation divisor_input="true">`. -/
def mutationTrue : Element :=
  { tagName := "mutation", attributes := [("divisor_input", "true")] }

/-- The block after `domToMutation` of `mutationTrue` on a new block: the
socket `DIVISOR` is there while the field `PROPERTY` still reads `EVEN`. -/
def loadedBlock : Block :=
  { propertyBlock with
    inputList := propertyBlock.inputList ++ [{ name := "DIVISOR", check := some "Number", fieldRow := [] }] }

/-- The block of a `math_number_property` whose field `PROPERTY` reads `v`
and whose shape follows the field: the socket `DIVISOR` comes last, and only
for `DIVISIBLE_BY`. -/
def shapeOf (v : String) : Block :=
  { inputList :=
      [{ name := "NUMBER_TO_CHECK", check := some "Number", fieldRow := [] },
       { name := "", check := none, fieldRow := [{ name := "PROPERTY", value := v }] }] ++
      (if v = "DIVISIBLE_BY" then [{ name := "DIVISOR", check := some "Number", fieldRow := [] }]
       else [])
    inputsInline := true
    outputCheck := some "Boolean"
    warningText := none
    varType := none }

/-- The tags the contract lists for `getType`. -/
def typeTags : List String := ["int", "float", "boolean", "errornumber"]

/-- A new `math_change` block on the variable `item`. -/
def changeBlock : Block := math_change.init "item" Block.empty

/-- A message table in which every message is its own key. -/
def keyMessages : Messages := fun key => some key

/-- A block with the one field `OP` holding the mode. -/
def modeBlock (mode : String) : Block :=
  Block.empty.appendDummyInput [{ name := "OP", value := mode }]

/-- The states of a `math_number_property` block: the state after `init` and
every state a call of the change handler, of `domToMutation` or of
`setFieldValue` leads to. -/
inductive math_number_property.Reachable (Msg : Messages) : Block → Prop where
  | init : Reachable Msg (math_number_property.init Msg Block.empty)
  | changeHandler (option : String) (b b' : Block) :
      Reachable Msg b → math_number_property.changeHandler option b = .ok b' → Reachable Msg b'
  | domToMutation (xmlElement : Element) (b b' : Block) :
      Reachable Msg b → math_number_property.domToMutation xmlElement b = .ok b' →
      Reachable Msg b'
  | setFieldValue (newValue name : String) (b : Block) :
      Reachable Msg b → Reachable Msg (b.setFieldValue newValue name)

end Blockly

open Blockly

/-! ## `math_number`: the two patterns and the classification -/

theorem Atom_test_digit (c : Char) : Atom.test .digit c = c.isDigit := by
  simp only [Atom.test, Char.isDigit, ge_iff_le, UInt32.le_def]
  rfl

theorem Atom_test_range09 (c : Char) : Atom.test (.cls [.range '0' '9']) c = c.isDigit := by
  simp only [Atom.test, ClassItem.test, List.any_cons, List.any_nil, Bool.or_false, Char.isDigit,
    ge_iff_le, UInt32.le_def]
  rfl

theorem Atom_test_dot (c : Char) : Atom.test (.cls [.lit '.']) c = (c == '.') := by
  simp [Atom.test, ClassItem.test]

/-- The greedy loop succeeds exactly when some accepted prefix can be split off
so that the continuation accepts the rest. -/
theorem starLoop_iff (a : Atom) (k : Bool → List Char → Bool) (st : Bool) (s : List Char) :
    starLoop a k st s = true ↔
      ∃ p r, s = p ++ r ∧ (∀ c ∈ p, a.test c = true) ∧ k (st && p.isEmpty) r = true := by
  induction s generalizing st with
  | nil =>
    constructor
    · intro h
      exact ⟨[], [], rfl, by simp, by simpa [starLoop] using h⟩
    · rintro ⟨p, r, hs, -, hk⟩
      have hp : p = [] := by
        cases p with
        | nil => rfl
        | cons x xs => simp at hs
      subst hp
      have hr : r = [] := by simpa using hs.symm
      subst hr
      simpa [starLoop] using hk
  | cons c s ih =>
    constructor
    · intro h
      simp only [starLoop, Bool.or_eq_true, Bool.and_eq_true] at h
      rcases h with ⟨hc, hl⟩ | hk
      · obtain ⟨p, r, hs, hp, hk⟩ := (ih false).1 hl
        refine ⟨c :: p, r, by simp [hs], ?_, by simpa using hk⟩
        intro x hx
        rcases List.mem_cons.1 hx with rfl | hx
        · exact hc
        · exact hp x hx
      · exact ⟨[], c :: s, rfl, by simp, by simpa using hk⟩
    · rintro ⟨p, r, hs, hp, hk⟩
      simp only [starLoop, Bool.or_eq_true, Bool.and_eq_true]
      cases p with
      | nil =>
        right
        have hr : r = c :: s := by simpa using hs.symm
        subst hr
        simpa using hk
      | cons x xs =>
        left
        simp only [List.cons_append, List.cons.injEq] at hs
        obtain ⟨rfl, hs⟩ := hs
        refine ⟨hp _ (List.mem_cons_self _ _), (ih false).2 ⟨xs, r, hs, ?_, by simpa using hk⟩⟩
        intro y hy
        exact hp y (List.mem_cons_of_mem _ hy)

/-- A pattern that starts with `^` matches at no later position. -/
theorem testFrom_bos_false (ts : List Term) (s : List Char) :
    testFrom (.bos :: ts) false s = false := by
  induction s with
  | nil => simp [testFrom, matchFrom]
  | cons c s ih => simp [testFrom, matchFrom, ih]

/-- A pattern that starts with `^` is tested at the start only. -/
theorem RegExp_test_bos (ts : List Term) (s : String) :
    RegExp.test (.bos :: ts) s = matchFrom ts true s.toList := by
  unfold RegExp.test
  cases s.toList with
  | nil => simp [testFrom, matchFrom]
  | cons c l => simp [testFrom, matchFrom, testFrom_bos_false]

/-- The tail `[0-9]+$` or `\d+$` of both patterns: one or more accepted
characters up to the end. -/
theorem matchFrom_plus_eos (a : Atom) (st : Bool) (s : List Char) :
    matchFrom [.plus a, .eos] st s = true ↔ s ≠ [] ∧ ∀ c ∈ s, a.test c = true := by
  cases s with
  | nil => simp [matchFrom]
  | cons c s =>
    simp only [matchFrom, Bool.and_eq_true, starLoop_iff, ne_eq, reduceCtorEq, not_false_eq_true,
      List.mem_cons, forall_eq_or_imp, true_and, List.isEmpty_eq_true, Bool.and_true]
    constructor
    · rintro ⟨hc, p, r, hs, hp, hr⟩
      subst hr
      simp only [List.append_nil] at hs
      subst hs
      exact ⟨hc, hp⟩
    · rintro ⟨hc, hs⟩
      exact ⟨hc, s, [], by simp, hs, rfl⟩

/-- The pattern `/^\d+$/` accepts exactly the texts of one or more digits. -/
theorem regExpInt_test_iff (s : String) :
    RegExp.test math_number.regExpInt s = true ↔ IsIntText s := by
  unfold math_number.regExpInt IsIntText
  rw [RegExp_test_bos, matchFrom_plus_eos]
  simp only [Atom_test_digit]

theorem matchFrom_star (a : Atom) (ts : List Term) (st : Bool) (s : List Char) :
    matchFrom (.star a :: ts) st s = starLoop a (fun st' s' => matchFrom ts st' s') st s := by
  rw [matchFrom]

theorem matchFrom_one_nil (a : Atom) (ts : List Term) (st : Bool) :
    matchFrom (.one a :: ts) st [] = false := by
  rw [matchFrom]

theorem matchFrom_one_cons (a : Atom) (ts : List Term) (st : Bool) (c : Char) (s : List Char) :
    matchFrom (.one a :: ts) st (c :: s) = (a.test c && matchFrom ts false s) := by
  rw [matchFrom]

/-- The pattern `/^[0-9]*[.][0-9]+$/` accepts exactly the texts of digits, a
dot and one or more digits. -/
theorem regExpFloat_test_iff (s : String) :
    RegExp.test math_number.regExpFloat s = true ↔ IsFloatText s := by
  unfold math_number.regExpFloat IsFloatText
  rw [RegExp_test_bos, matchFrom_star, starLoop_iff]
  simp only [Atom_test_range09]
  constructor
  · rintro ⟨p, r, hs, hp, hk⟩
    cases r with
    | nil => simp [matchFrom_one_nil] at hk
    | cons d q =>
      rw [matchFrom_one_cons, Bool.and_eq_true, Atom_test_dot, beq_iff_eq] at hk
      obtain ⟨rfl, hq⟩ := hk
      have hq' := (matchFrom_plus_eos (.cls [.range '0' '9']) false q).1 hq
      simp only [Atom_test_range09] at hq'
      exact ⟨p, q, hs, hp, hq'.1, hq'.2⟩
  · rintro ⟨a, b, hs, ha, hb, hb'⟩
    refine ⟨a, '.' :: b, hs, ha, ?_⟩
    rw [matchFrom_one_cons, Bool.and_eq_true, Atom_test_dot, beq_iff_eq]
    refine ⟨rfl, (matchFrom_plus_eos (.cls [.range '0' '9']) false b).2 ⟨hb, ?_⟩⟩
    simpa only [Atom_test_range09] using hb'

/-- No text is of both formats: a text of digits holds no dot. -/
theorem not_int_and_float (s : String) (hi : IsIntText s) : ¬ IsFloatText s := by
  rintro ⟨a, b, hs, -, -, -⟩
  have hd := hi.2 '.' (by rw [hs]; simp)
  exact absurd hd (by decide)

/-- C1: `math_number.getType` classifies the text of the `NUM` field without
raising: a text of one or more ASCII digits is `int`, a text of zero or more
digits, a dot and one or more digits is `float`, every other text is
`errornumber`; the block is left as it was. -/
theorem math_number_getType_classifies (b : Block) (s : String)
    (h : b.getFieldValue "NUM" = some s) :
    (IsIntText s → math_number.getType b = ("int", b)) ∧
    (IsFloatText s → math_number.getType b = ("float", b)) ∧
    (¬ IsIntText s → ¬ IsFloatText s → math_number.getType b = ("errornumber", b)) := by
  have hfi : ∀ v : Bool, v = true ∨ v = false := fun v => by cases v <;> simp
  refine ⟨?_, ?_, ?_⟩
  · intro hi
    have h1 := (regExpInt_test_iff s).2 hi
    simp [math_number.getType, h, toStr, h1]
  · intro hf
    have h2 := (regExpFloat_test_iff s).2 hf
    have h1 : RegExp.test math_number.regExpInt s = false := by
      rcases hfi (RegExp.test math_number.regExpInt s) with h1 | h1
      · exact absurd hf (not_int_and_float s ((regExpInt_test_iff s).1 h1))
      · exact h1
    simp [math_number.getType, h, toStr, h1, h2]
  · intro hi hf
    have h1 : RegExp.test math_number.regExpInt s = false := by
      rcases hfi (RegExp.test math_number.regExpInt s) with h1 | h1
      · exact absurd ((regExpInt_test_iff s).1 h1) hi
      · exact h1
    have h2 : RegExp.test math_number.regExpFloat s = false := by
      rcases hfi (RegExp.test math_number.regExpFloat s) with h2 | h2
      · exact absurd ((regExpFloat_test_iff s).1 h2) hf
      · exact h2
    simp [math_number.getType, h, toStr, h1, h2]

theorem math_number_getType_classifies_witness :
    math_number.getType (numberBlock "42") = ("int", numberBlock "42") ∧
    math_number.getType (numberBlock ".5") = ("float", numberBlock ".5") ∧
    math_number.getType (numberBlock "-5") = ("errornumber", numberBlock "-5") :=
  ⟨(math_number_getType_classifies (numberBlock "42") "42" (by decide)).1
      ⟨by decide, by decide⟩,
   (math_number_getType_classifies (numberBlock ".5") ".5" (by decide)).2.1
      ⟨[], ['5'], by decide, by decide, by decide, by decide⟩,
   (math_number_getType_classifies (numberBlock "-5") "-5" (by decide)).2.2
      (fun hi => absurd (hi.2 '-' (by decide)) (by decide))
      (fun hf => by
        obtain ⟨a, b, hs, ha, -, -⟩ := hf
        cases a with
        | nil =>
          have h0 : "-5".toList.head? = some '.' := by rw [hs]; rfl
          exact absurd h0 (by decide)
        | cons x xs =>
          have hx : x = '-' := by
            have := congrArg List.head? hs
            simpa using this.symm
          exact absurd (ha x (List.mem_cons_self _ _)) (by rw [hx]; decide))⟩

/-- The texts the contract names as malformed, and a missing field, are
`errornumber`. -/
theorem math_number_getType_examples :
    (math_number.getType (numberBlock "")).1 = "errornumber" ∧
    (math_number.getType (numberBlock "-5")).1 = "errornumber" ∧
    (math_number.getType (numberBlock "5.")).1 = "errornumber" ∧
    (math_number.getType (numberBlock "1e3")).1 = "errornumber" ∧
    (math_number.getType (numberBlock " 1")).1 = "errornumber" ∧
    (math_number.getType (numberBlock "7\n")).1 = "errornumber" ∧
    (math_number.getType Block.empty).1 = "errornumber" ∧
    (math_number.getType (numberBlock "007")).1 = "int" ∧
    (math_number.getType (numberBlock "3.14")).1 = "float" := by
  decide

/-! ## `math_number_property`: the shape -/

theorem find_isSome_iff (p : Input → Bool) (l : List Input) :
    (l.find? p).isSome = true ↔ 0 < (l.filter p).length := by
  induction l with
  | nil => simp
  | cons i is ih =>
    by_cases hp : p i = true
    · simp [List.find?, List.filter, hp]
    · simp only [Bool.not_eq_true] at hp
      simp [List.find?, List.filter, hp, ih]

/-- Taking out the first input with a name that occurs: one input of that name
less, the others as they were. -/
theorem removeFirst_spec (name : String) (l : List Input)
    (h : 0 < (l.filter (fun i => i.name == name)).length) :
    ∃ l', removeFirst name l = some l' ∧
      (l'.filter (fun i => i.name == name)).length + 1 =
        (l.filter (fun i => i.name == name)).length ∧
      l'.filter (fun i => !(i.name == name)) = l.filter (fun i => !(i.name == name)) ∧
      l'.length + 1 = l.length := by
  induction l with
  | nil => simp at h
  | cons i is ih =>
    by_cases hp : (i.name == name) = true
    · exact ⟨is, by simp [removeFirst, hp], by simp [List.filter, hp], by simp [List.filter, hp],
        by simp⟩
    · simp only [Bool.not_eq_true] at hp
      have h' : 0 < (is.filter (fun i => i.name == name)).length := by
        simpa [List.filter, hp] using h
      obtain ⟨l', h1, h2, h3, h4⟩ := ih h'
      refine ⟨i :: l', by simp [removeFirst, hp, h1], ?_, ?_, by simp [h4]⟩
      · simpa [List.filter, hp] using h2
      · simp [List.filter, hp, h3]

theorem hasDivisor_iff (b : Block) : hasDivisor b = true ↔ 0 < divisorCount b := by
  unfold hasDivisor divisorCount Block.getInput
  exact find_isSome_iff _ _

theorem hasDivisor_false_iff (b : Block) : hasDivisor b = false ↔ divisorCount b = 0 := by
  have h := hasDivisor_iff b
  cases hd : hasDivisor b
  · simp only [hd, Bool.false_eq_true, false_iff, not_lt, Nat.le_zero_eq] at h
    simp [h]
  · simp only [hd, true_iff] at h
    simp only [Bool.true_eq_false, false_iff]
    omega

/-- The call `updateShape_(true)`: never raises, adds the socket at the end
when there was none and keeps the block otherwise. -/
theorem updateShape_true (b : Block) :
    math_number_property.updateShape_ true b =
      .ok (if hasDivisor b then b else b.appendValueInput "DIVISOR" (some "Number")) := by
  unfold math_number_property.updateShape_ hasDivisor
  cases h : b.getInput "DIVISOR" <;> simp

/-- The call `updateShape_(false)` without the socket keeps the block. -/
theorem updateShape_false_absent (b : Block) (h : hasDivisor b = false) :
    math_number_property.updateShape_ false b = .ok b := by
  unfold hasDivisor at h
  unfold math_number_property.updateShape_
  simp [h]

/-- The call `updateShape_(false)` with the socket: never raises and takes
one input named `DIVISOR` out. -/
theorem updateShape_false_present (b : Block) (h : hasDivisor b = true) :
    ∃ b', math_number_property.updateShape_ false b = .ok b' ∧
      divisorCount b' + 1 = divisorCount b ∧ otherInputs b' = otherInputs b ∧
      b'.inputList.length + 1 = b.inputList.length := by
  obtain ⟨l', h1, h2, h3, h4⟩ := removeFirst_spec "DIVISOR" b.inputList ((hasDivisor_iff b).1 h)
  refine ⟨{ b with inputList := l' }, ?_, h2, h3, h4⟩
  unfold hasDivisor at h
  unfold math_number_property.updateShape_ Block.removeInput
  simp [h, h1]

theorem divisorCount_append (b : Block) :
    divisorCount (b.appendValueInput "DIVISOR" (some "Number")) = divisorCount b + 1 := by
  simp [divisorCount, Block.appendValueInput, List.filter_append, List.filter]

theorem otherInputs_append (b : Block) :
    otherInputs (b.appendValueInput "DIVISOR" (some "Number")) = otherInputs b := by
  simp [otherInputs, Block.appendValueInput, List.filter_append, List.filter]

/-- What `updateShape_` does to a block with at most one input named
`DIVISOR`: it never raises, the result has the socket exactly when asked
for, the other inputs stay, and a second call changes nothing. -/
theorem updateShape_spec (d : Bool) (b : Block) (hwf : divisorCount b ≤ 1) :
    ∃ b', math_number_property.updateShape_ d b = .ok b' ∧
      divisorCount b' = (if d then 1 else 0) ∧
      otherInputs b' = otherInputs b ∧
      b'.inputList.length + (if hasDivisor b then 1 else 0) =
        b.inputList.length + (if d then 1 else 0) ∧
      math_number_property.updateShape_ d b' = .ok b' := by
  cases d
  · cases hd : hasDivisor b
    · have h0 := (hasDivisor_false_iff b).1 hd
      exact ⟨b, updateShape_false_absent b hd, by simp [h0], rfl, by simp,
        updateShape_false_absent b hd⟩
    · obtain ⟨b', h1, h2, h3, h4⟩ := updateShape_false_present b hd
      have h0 : divisorCount b' = 0 := by omega
      exact ⟨b', h1, by simp [h0], h3, by simp; omega,
        updateShape_false_absent b' ((hasDivisor_false_iff b').2 h0)⟩
  · cases hd : hasDivisor b
    · have h0 := (hasDivisor_false_iff b).1 hd
      have hc := divisorCount_append b
      have hd' : hasDivisor (b.appendValueInput "DIVISOR" (some "Number")) = true :=
        (hasDivisor_iff _).2 (by omega)
      refine ⟨b.appendValueInput "DIVISOR" (some "Number"), by simp [updateShape_true, hd],
        by simp [hc, h0], otherInputs_append b, by simp [Block.appendValueInput], ?_⟩
      simp [updateShape_true, hd']
    · have h0 := (hasDivisor_iff b).1 hd
      exact ⟨b, by simp [updateShape_true, hd], by simp; omega, rfl, by simp,
        by simp [updateShape_true, hd]⟩

theorem setInInputs_count (name newValue : String) (p : String → Bool) (l : List Input) :
    ((setInInputs name newValue l).filter (fun i => p i.name)).length =
      (l.filter (fun i => p i.name)).length := by
  induction l with
  | nil => rfl
  | cons i is ih =>
    cases h : setInRow name newValue i.fieldRow with
    | none =>
      by_cases hp : p i.name = true
      · simp [setInInputs, h, List.filter, hp, ih]
      · simp only [Bool.not_eq_true] at hp
        simp [setInInputs, h, List.filter, hp, ih]
    | some row =>
      by_cases hp : p i.name = true
      · simp [setInInputs, h, List.filter, hp]
      · simp only [Bool.not_eq_true] at hp
        simp [setInInputs, h, List.filter, hp]

/-- Every state of a `math_number_property` block has at most one input named
`DIVISOR`. -/
theorem reachable_divisorCount (Msg : Messages) (b : Block)
    (h : math_number_property.Reachable Msg b) : divisorCount b ≤ 1 := by
  induction h with
  | init =>
    simp [divisorCount, math_number_property.init, Block.appendValueInput,
      Block.appendDummyInput, Block.empty, List.filter]
  | changeHandler option b b' _ hc ih =>
    obtain ⟨b'', h1, h2, -⟩ := updateShape_spec (option == "DIVISIBLE_BY") b ih
    have hb : b' = b'' := by
      have := hc.symm.trans h1
      simpa using this
    rw [hb, h2]
    split <;> omega
  | domToMutation xmlElement b b' _ hc ih =>
    obtain ⟨b'', h1, h2, -⟩ :=
      updateShape_spec (xmlElement.getAttribute "divisor_input" == some "true") b ih
    have hb : b' = b'' := by
      have := hc.symm.trans h1
      simpa using this
    rw [hb, h2]
    split <;> omega
  | setFieldValue newValue name b _ ih =>
    have := setInInputs_count name newValue (fun n => n == "DIVISOR") b.inputList
    simpa [divisorCount, Block.setFieldValue, this] using ih

/-- C2: on a block with at most one input named `DIVISOR`, the change handler
of the `PROPERTY` dropdown never raises; with the option `DIVISIBLE_BY` the
block ends with exactly one input named `DIVISOR` (one input more if there was
none, none more if there was one), with any other option it ends with none;
running the handler again with the same option changes nothing, and the
inputs with another name stay as they were. -/
theorem changeHandler_divisor_socket (b : Block) (option : String)
    (hwf : divisorCount b ≤ 1) :
    ∃ b', math_number_property.changeHandler option b = .ok b' ∧
      (option = "DIVISIBLE_BY" → divisorCount b' = 1 ∧
        b'.inputList.length = b.inputList.length + (if hasDivisor b then 0 else 1)) ∧
      (option ≠ "DIVISIBLE_BY" → divisorCount b' = 0 ∧ hasDivisor b' = false) ∧
      math_number_property.changeHandler option b' = .ok b' ∧
      otherInputs b' = otherInputs b := by
  obtain ⟨b', h1, h2, h3, h4, h5⟩ := updateShape_spec (option == "DIVISIBLE_BY") b hwf
  refine ⟨b', h1, ?_, ?_, h5, h3⟩
  · intro ho
    subst ho
    simp only [beq_self_eq_true, if_true] at h2 h4
    refine ⟨h2, ?_⟩
    cases hd : hasDivisor b
    · simpa [hd] using h4
    · simp only [hd, if_true] at h4
      simp only [if_true]
      omega
  · intro ho
    have hb : (option == "DIVISIBLE_BY") = false := by simpa using ho
    simp only [hb, Bool.false_eq_true, if_false] at h2
    exact ⟨h2, (hasDivisor_false_iff b').2 h2⟩

theorem changeHandler_divisor_socket_witness :
    divisorCount propertyBlock ≤ 1 ∧
    ∃ b', math_number_property.changeHandler "DIVISIBLE_BY" propertyBlock = .ok b' ∧
      ("DIVISIBLE_BY" = "DIVISIBLE_BY" → divisorCount b' = 1 ∧
        b'.inputList.length =
          propertyBlock.inputList.length + (if hasDivisor propertyBlock then 0 else 1)) ∧
      ("DIVISIBLE_BY" ≠ "DIVISIBLE_BY" → divisorCount b' = 0 ∧ hasDivisor b' = false) ∧
      math_number_property.changeHandler "DIVISIBLE_BY" b' = .ok b' ∧
      otherInputs b' = otherInputs propertyBlock :=
  ⟨by decide, changeHandler_divisor_socket propertyBlock "DIVISIBLE_BY" (by decide)⟩

/-- What `domToMutation` does to a block with at most one input named
`DIVISOR`. -/
theorem domToMutation_spec (xmlElement : Element) (b : Block) (hwf : divisorCount b ≤ 1) :
    ∃ b', math_number_property.domToMutation xmlElement b = .ok b' ∧
      (hasDivisor b' = true ↔ xmlElement.getAttribute "divisor_input" = some "true") ∧
      divisorCount b' =
        (if xmlElement.getAttribute "divisor_input" = some "true" then 1 else 0) ∧
      otherInputs b' = otherInputs b := by
  obtain ⟨b', h1, h2, h3, -, -⟩ :=
    updateShape_spec (xmlElement.getAttribute "divisor_input" == some "true") b hwf
  refine ⟨b', h1, ?_, ?_, h3⟩
  · rw [hasDivisor_iff, h2]
    by_cases ha : xmlElement.getAttribute "divisor_input" = some "true"
    · simp [ha]
    · simp [ha]
  · rw [h2]
    by_cases ha : xmlElement.getAttribute "divisor_input" = some "true"
    · simp [ha]
    · simp [ha]

/-- C5: on a block with at most one input named `DIVISOR`, `domToMutation`
never raises, and afterwards the input `DIVISOR` is there exactly when the
attribute `divisor_input` of the element is the string `true` (not with
another value, not without the attribute), whatever the shape was before; the
inputs with another name stay as they were. -/
theorem domToMutation_shape (xmlElement : Element) (b : Block) (hwf : divisorCount b ≤ 1) :
    ∃ b', math_number_property.domToMutation xmlElement b = .ok b' ∧
      (hasDivisor b' = true ↔ xmlElement.getAttribute "divisor_input" = some "true") ∧
      divisorCount b' =
        (if xmlElement.getAttribute "divisor_input" = some "true" then 1 else 0) ∧
      otherInputs b' = otherInputs b :=
  domToMutation_spec xmlElement b hwf

theorem domToMutation_shape_witness :
    divisorCount propertyBlock ≤ 1 ∧
    ∃ b', math_number_property.domToMutation mutationTrue propertyBlock = .ok b' ∧
      (hasDivisor b' = true ↔ mutationTrue.getAttribute "divisor_input" = some "true") ∧
      divisorCount b' =
        (if mutationTrue.getAttribute "divisor_input" = some "true" then 1 else 0) ∧
      otherInputs b' = otherInputs propertyBlock :=
  ⟨by decide, domToMutation_shape mutationTrue propertyBlock (by decide)⟩

/-- The fragment of `mutationToDom`: the element `mutation` with the one
attribute `divisor_input`, which spells whether the field `PROPERTY` reads
`DIVISIBLE_BY`. -/
theorem mutationToDom_eq (b : Block) :
    math_number_property.mutationToDom b =
      { tagName := "mutation",
        attributes := [("divisor_input",
          boolToStr (b.getFieldValue "PROPERTY" == some "DIVISIBLE_BY"))] } := by
  simp [math_number_property.mutationToDom, createElement, Element.setAttribute]

theorem mutationToDom_attr_true_iff (b : Block) :
    (math_number_property.mutationToDom b).getAttribute "divisor_input" = some "true" ↔
      b.getFieldValue "PROPERTY" = some "DIVISIBLE_BY" := by
  rw [mutationToDom_eq]
  by_cases h : b.getFieldValue "PROPERTY" = some "DIVISIBLE_BY"
  · simp [Element.getAttribute, List.lookup, h, boolToStr]
  · have hb : (b.getFieldValue "PROPERTY" == some "DIVISIBLE_BY") = false := by simpa using h
    simp [Element.getAttribute, List.lookup, h, hb, boolToStr]

/-- C3 as stated fails: after `domToMutation` of `divisor_input="true"` on a new
block the socket `DIVISOR` is there while `PROPERTY` reads `EVEN`; its
encoding says `false`, and decoding that on a new block gives no socket. -/
theorem mutation_roundtrip_counterexample :
    math_number_property.domToMutation mutationTrue propertyBlock = .ok loadedBlock ∧
    hasDivisor loadedBlock = true ∧
    math_number_property.mutationToDom loadedBlock =
      { tagName := "mutation", attributes := [("divisor_input", "false")] } ∧
    math_number_property.domToMutation (math_number_property.mutationToDom loadedBlock)
      propertyBlock = .ok propertyBlock ∧
    hasDivisor propertyBlock = false := by
  decide

/-- C3, amended: for a block whose input `DIVISOR` is there exactly when the
field `PROPERTY` reads `DIVISIBLE_BY`, decoding the fragment of
`mutationToDom` on a block with at most one input named `DIVISOR` never
raises and gives a block that has the input `DIVISOR` exactly when the encoded
block had it; the other inputs of the decoding block stay. -/
theorem mutation_roundtrip (b t : Block)
    (hb : hasDivisor b = true ↔ b.getFieldValue "PROPERTY" = some "DIVISIBLE_BY")
    (ht : divisorCount t ≤ 1) :
    ∃ t', math_number_property.domToMutation (math_number_property.mutationToDom b) t = .ok t' ∧
      hasDivisor t' = hasDivisor b ∧ otherInputs t' = otherInputs t := by
  obtain ⟨t', h1, h2, -, h4⟩ :=
    domToMutation_spec (math_number_property.mutationToDom b) t ht
  refine ⟨t', h1, ?_, h4⟩
  rw [mutationToDom_attr_true_iff, ← hb] at h2
  cases h : hasDivisor b
  · cases h' : hasDivisor t'
    · rfl
    · exact absurd (h2.1 h') (by simp [h])
  · exact h2.2 h

theorem mutation_roundtrip_witness :
    (hasDivisor (shapeOf "DIVISIBLE_BY") = true ↔
      (shapeOf "DIVISIBLE_BY").getFieldValue "PROPERTY" = some "DIVISIBLE_BY") ∧
    divisorCount propertyBlock ≤ 1 ∧
    ∃ t', math_number_property.domToMutation
        (math_number_property.mutationToDom (shapeOf "DIVISIBLE_BY")) propertyBlock = .ok t' ∧
      hasDivisor t' = hasDivisor (shapeOf "DIVISIBLE_BY") ∧
      otherInputs t' = otherInputs propertyBlock :=
  ⟨by decide, by decide,
   mutation_roundtrip (shapeOf "DIVISIBLE_BY") propertyBlock (by decide) (by decide)⟩

/-! ## `math_number_property`: field and shape under selections -/

theorem init_eq_shapeOf (Msg : Messages) :
    math_number_property.init Msg Block.empty = shapeOf "EVEN" := by
  simp [math_number_property.init, shapeOf, Block.empty, Block.appendValueInput,
    Block.appendDummyInput, FieldDropdown, math_number_property.PROPERTIES]

/-- A selection on a block whose shape follows the field gives the block of
the selected option whose shape follows the field. -/
theorem select_shapeOf (option v : String) :
    math_number_property.select option (shapeOf v) = .ok (shapeOf option) := by
  by_cases hv : v = "DIVISIBLE_BY" <;> by_cases ho : option = "DIVISIBLE_BY"
  · subst hv ho
    decide
  · subst hv
    simp [math_number_property.select, math_number_property.changeHandler,
      math_number_property.updateShape_, shapeOf, ho, Block.getInput, Block.removeInput,
      removeFirst, Block.setFieldValue, setInInputs, setInRow, Except.map]
  · subst ho
    simp [math_number_property.select, math_number_property.changeHandler,
      math_number_property.updateShape_, shapeOf, hv, Block.getInput, Block.appendValueInput,
      Block.setFieldValue, setInInputs, setInRow, Except.map]
  · simp [math_number_property.select, math_number_property.changeHandler,
      math_number_property.updateShape_, shapeOf, hv, ho, Block.getInput,
      Block.setFieldValue, setInInputs, setInRow, Except.map]

theorem selectAll_shapeOf (options : List String) (v : String) :
    ∃ v', math_number_property.selectAll options (shapeOf v) = .ok (shapeOf v') := by
  induction options generalizing v with
  | nil => exact ⟨v, rfl⟩
  | cons o os ih =>
    obtain ⟨v', h⟩ := ih o
    exact ⟨v', by simp [math_number_property.selectAll, select_shapeOf, h]⟩

theorem shapeOf_getFieldValue (v : String) : (shapeOf v).getFieldValue "PROPERTY" = some v := by
  by_cases hv : v = "DIVISIBLE_BY"
  · subst hv
    decide
  · simp [shapeOf, hv, Block.getFieldValue]

theorem shapeOf_hasDivisor (v : String) : hasDivisor (shapeOf v) = true ↔ v = "DIVISIBLE_BY" := by
  by_cases hv : v = "DIVISIBLE_BY"
  · subst hv
    decide
  · simp [shapeOf, hv, hasDivisor, Block.getInput]

theorem shapeOf_divisorCount (v : String) : divisorCount (shapeOf v) ≤ 1 := by
  by_cases hv : v = "DIVISIBLE_BY"
  · subst hv
    decide
  · simp [shapeOf, hv, divisorCount]

/-- C10: any sequence of selections in the `PROPERTY` dropdown of a new block
runs without raising, and in the state it reaches the input `DIVISOR` is
there exactly when the field `PROPERTY` reads `DIVISIBLE_BY` (and at most
once); so the attribute `divisor_input` of `mutationToDom` is `true` exactly
when the socket is there. -/
theorem selectAll_field_shape (Msg : Messages) (options : List String) :
    ∃ b, math_number_property.selectAll options (math_number_property.init Msg Block.empty) =
        .ok b ∧
      (hasDivisor b = true ↔ b.getFieldValue "PROPERTY" = some "DIVISIBLE_BY") ∧
      divisorCount b ≤ 1 ∧
      ((math_number_property.mutationToDom b).getAttribute "divisor_input" = some "true" ↔
        hasDivisor b = true) := by
  obtain ⟨v, h⟩ := selectAll_shapeOf options "EVEN"
  refine ⟨shapeOf v, by rw [init_eq_shapeOf, h], ?_, shapeOf_divisorCount v, ?_⟩
  · rw [shapeOf_hasDivisor, shapeOf_getFieldValue]
    simp
  · rw [mutationToDom_attr_true_iff, shapeOf_hasDivisor, shapeOf_getFieldValue]
    simp

/-! ## `math_change`: the type of the variable -/

theorem keys_any_eq_lookup (existingVars : List (String × Option String)) (v : String) :
    (existingVars.map Prod.fst).any (fun n => some n == some v) =
      (existingVars.lookup v).isSome := by
  induction existingVars with
  | nil => simp
  | cons e es ih =>
    obtain ⟨k, t⟩ := e
    by_cases hk : v = k
    · subst hk
      simp [List.lookup]
    · have hk' : (v == k) = false := by simpa using hk
      have hk'' : ¬ k = v := fun h => hk h.symm
      simp only [List.map_cons, List.any_cons, List.lookup, hk', ih]
      simp [hk'']

/-- The loop of `getVarType`: it stores the recorded type as soon as a key is
the variable name and keeps everything without such a key. -/
theorem getVarType_loop_eq (existingVars : List (String × Option String))
    (varName : Option String) (keys : List String) (acc : Option String × Block) :
    math_change.getVarType.loop existingVars varName keys acc =
      if keys.any (fun n => some n == varName) then
        (property existingVars (toStr varName),
          { acc.2 with varType := property existingVars (toStr varName) })
      else acc := by
  induction keys with
  | nil => simp [math_change.getVarType.loop]
  | cons k ks ih =>
    obtain ⟨vt, b⟩ := acc
    by_cases hk : (some k == varName) = true
    · simp [math_change.getVarType.loop, hk]
    · simp only [Bool.not_eq_true] at hk
      simp only [math_change.getVarType.loop, hk, Bool.false_eq_true, if_false, ih,
        List.any_cons, Bool.false_or]

theorem warning_ne_empty (T : String) :
    "This variable type has been previously set to a " ++ T ++ " and it needs to be a number!" ≠
      "" := by
  intro h
  have h0 := congrArg String.length h
  simp only [String.length_append] at h0
  have h1 : " and it needs to be a number!".length = 29 := by decide
  have h2 : "".length = 0 := by decide
  omega

/-- The call `getVarType` on a variable without a recorded type (no entry, or
an entry that is `null`). -/
theorem getVarType_unrecorded (existingVars : List (String × Option String)) (b : Block)
    (v : String) (hv : b.getFieldValue "VAR" = some v) (hp : property existingVars v = none) :
    math_change.getVarType existingVars b =
      (some "int", { b with varType := some "int", warningText := none }) := by
  unfold math_change.getVarType
  simp only [hv, getVarType_loop_eq, keys_any_eq_lookup, toStr, hp]
  cases (existingVars.lookup v).isSome <;> simp [Block.setWarningText]

/-- The call `getVarType` on a variable with a recorded type. -/
theorem getVarType_recorded (existingVars : List (String × Option String)) (b : Block)
    (v T : String) (hv : b.getFieldValue "VAR" = some v)
    (hp : property existingVars v = some T) :
    math_change.getVarType existingVars b =
      (some T, { b with
        varType := some T
        warningText :=
          if T = "int" ∨ T = "float" then none
          else some ("This variable type has been previously set to a " ++ T ++
            " and it needs to be a number!") }) := by
  have hl : (existingVars.lookup v).isSome = true := by
    unfold property at hp
    cases h : existingVars.lookup v with
    | none => simp [h] at hp
    | some x => rfl
  unfold math_change.getVarType
  simp only [hv, getVarType_loop_eq, keys_any_eq_lookup, toStr, hp, hl, if_true]
  by_cases h1 : T = "int"
  · simp [h1, Block.setWarningText]
  · by_cases h2 : T = "float"
    · simp [h2, Block.setWarningText]
    · simp [h1, h2, Block.setWarningText]

/-- After `getVarType` the member `varType` holds the returned value. -/
theorem getVarType_stores (existingVars : List (String × Option String)) (b : Block) :
    (math_change.getVarType existingVars b).2.varType =
      (math_change.getVarType existingVars b).1 := by
  unfold math_change.getVarType
  simp only [getVarType_loop_eq]
  split
  · cases hp : property existingVars (toStr (b.getFieldValue "VAR")) with
    | none => simp [Block.setWarningText]
    | some T =>
      by_cases h1 : T = "int"
      · simp [h1, Block.setWarningText]
      · by_cases h2 : T = "float"
        · simp [h2, Block.setWarningText]
        · simp [h1, h2, Block.setWarningText]
  · simp [Block.setWarningText]

/-- C4: `math_change.getVarType` on a table in which the name of the `VAR`
field has no recorded type (no entry, or an entry that is `null`) returns
`int` and clears the warning text; on a table that records the name with a
type other than `int` and `float` it sets the warning text to a non-empty
string that spells the recorded type; it never raises. -/
theorem getVarType_warning (existingVars : List (String × Option String)) (b : Block)
    (v : String) (hv : b.getFieldValue "VAR" = some v) :
    (property existingVars v = none →
      (math_change.getVarType existingVars b).1 = some "int" ∧
      (math_change.getVarType existingVars b).2.warningText = none) ∧
    (∀ T, property existingVars v = some T → T ≠ "int" → T ≠ "float" →
      ∃ w, (math_change.getVarType existingVars b).2.warningText = some w ∧ w ≠ "" ∧
        w = "This variable type has been previously set to a " ++ T ++
          " and it needs to be a number!") := by
  constructor
  · intro hp
    rw [getVarType_unrecorded existingVars b v hv hp]
    exact ⟨rfl, rfl⟩
  · intro T hp h1 h2
    rw [getVarType_recorded existingVars b v T hv hp]
    exact ⟨_, by simp [h1, h2], warning_ne_empty T, rfl⟩

theorem getVarType_warning_witness :
    ((math_change.getVarType [("count", some "float")] changeBlock).1 = some "int" ∧
      (math_change.getVarType [("count", some "float")] changeBlock).2.warningText = none) ∧
    (∃ w, (math_change.getVarType [("item", some "boolean")] changeBlock).2.warningText = some w ∧
      w ≠ "" ∧
      w = "This variable type has been previously set to a " ++ "boolean" ++
        " and it needs to be a number!") :=
  ⟨(getVarType_warning [("count", some "float")] changeBlock "item" (by decide)).1 (by decide),
   (getVarType_warning [("item", some "boolean")] changeBlock "item" (by decide)).2 "boolean"
      (by decide) (by decide) (by decide)⟩

/-- C9: right after `getVarType` returned a value, `getType` returns the same
value (also when the table records the name with `null`, where both are
`int`); when the table records the name of the `VAR` field with a type, the
value is that type, and the warning is cleared when it is `int` or `float`. -/
theorem getType_after_getVarType (existingVars : List (String × Option String)) (b : Block) :
    (math_change.getType (math_change.getVarType existingVars b).2).1 =
      (math_change.getVarType existingVars b).1 ∧
    (∀ v, b.getFieldValue "VAR" = some v → property existingVars v = none →
      (math_change.getVarType existingVars b).1 = some "int") ∧
    (∀ v T, b.getFieldValue "VAR" = some v → property existingVars v = some T →
      (math_change.getVarType existingVars b).1 = some T ∧
      (T = "int" ∨ T = "float" → (math_change.getVarType existingVars b).2.warningText = none)) := by
  refine ⟨getVarType_stores existingVars b, ?_, ?_⟩
  · intro v hv hp
    rw [getVarType_unrecorded existingVars b v hv hp]
  · intro v T hv hp
    rw [getVarType_recorded existingVars b v T hv hp]
    refine ⟨rfl, ?_⟩
    intro hT
    simp [hT]

theorem getType_after_getVarType_witness :
    (math_change.getType (math_change.getVarType [("item", none)] changeBlock).2).1 =
      (math_change.getVarType [("item", none)] changeBlock).1 ∧
    (math_change.getVarType [("item", none)] changeBlock).1 = some "int" ∧
    (math_change.getVarType [("item", some "float")] changeBlock).1 = some "float" ∧
    (math_change.getVarType [("item", some "float")] changeBlock).2.warningText = none :=
  ⟨(getType_after_getVarType [("item", none)] changeBlock).1,
   (getType_after_getVarType [("item", none)] changeBlock).2.1 "item" (by decide) (by decide),
   ((getType_after_getVarType [("item", some "float")] changeBlock).2.2 "item" "float"
      (by decide) (by decide)).1,
   ((getType_after_getVarType [("item", some "float")] changeBlock).2.2 "item" "float"
      (by decide) (by decide)).2 (Or.inr rfl)⟩

/-- The calls keep the member `varType` equal to the latest value `getVarType`
returned, or to the value it held while no call returned one. -/
theorem run_varType (calls : List math_change.Call) (b : Block) (rets : List (Option String))
    (t0 : Option String)
    (h : (∃ t, rets.head? = some t ∧ b.varType = t) ∨ (rets = [] ∧ b.varType = t0)) :
    (∃ t, (math_change.run calls (b, rets)).2.head? = some t ∧
        (math_change.run calls (b, rets)).1.varType = t) ∨
      ((math_change.run calls (b, rets)).2 = [] ∧
        (math_change.run calls (b, rets)).1.varType = t0) := by
  induction calls generalizing b rets with
  | nil => simpa [math_change.run] using h
  | cons c cs ih =>
    cases c with
    | getVarType existingVars =>
      simp only [math_change.run]
      apply ih
      left
      exact ⟨_, rfl, getVarType_stores existingVars b⟩
    | setFieldValue newValue =>
      simp only [math_change.run]
      apply ih
      simpa [Block.setFieldValue] using h

/-- C6 as stated fails: on a new `math_change`, before any call of
`getVarType`, `getType` returns `nonono`, which is none of the four tags,
and no call of `getVarType` returned a type before. -/
theorem getType_new_math_change_counterexample :
    (math_change.getType (math_change.run [] (changeBlock, [])).1).1 = some "nonono" ∧
    ¬ ((math_change.getType (math_change.run [] (changeBlock, [])).1).1 ∈ typeTags.map some ∨
       (math_change.getType (math_change.run [] (changeBlock, [])).1).1 ∈
         (math_change.run [] (changeBlock, [])).2) := by
  decide

/-- C6, amended: in every state `getType` of `math_number` returns `int`,
`float` or `errornumber`, and `getType` of each block with a fixed type returns
one of the four tags; `getType` of a `math_change`, after any calls since
`init`, returns the value of the latest call of `getVarType`, or `nonono`, the
value of the descriptor, when `getVarType` was not called yet. -/
theorem getType_tags (b : Block) (item : String) (calls : List math_change.Call) :
    (math_number.getType b).1 ∈ typeTags ∧
    (math_single.getType b).1 ∈ typeTags ∧
    (math_trig.getType b).1 ∈ typeTags ∧
    (math_constant.getType b).1 ∈ typeTags ∧
    (math_number_property.getType b).1 ∈ typeTags ∧
    (math_round.getType b).1 ∈ typeTags ∧
    (math_modulo.getType b).1 ∈ typeTags ∧
    (math_random_int.getType b).1 ∈ typeTags ∧
    (math_random_float.getType b).1 ∈ typeTags ∧
    ((∃ t, (math_change.run calls (math_change.init item Block.empty, [])).2.head? = some t ∧
        (math_change.getType
          (math_change.run calls (math_change.init item Block.empty, [])).1).1 = t) ∨
      ((math_change.run calls (math_change.init item Block.empty, [])).2 = [] ∧
        (math_change.getType
          (math_change.run calls (math_change.init item Block.empty, [])).1).1 =
            some "nonono")) := by
  have hi : "int" ∈ typeTags := by decide
  have hf : "float" ∈ typeTags := by decide
  have hb : "boolean" ∈ typeTags := by decide
  have he : "errornumber" ∈ typeTags := by decide
  refine ⟨?_, hf, hf, hf, hb, hf, hi, hi, hf, ?_⟩
  · simp only [math_number.getType]
    split_ifs
    · exact hi
    · exact hf
    · exact he
  · exact run_varType calls (math_change.init item Block.empty) [] (some "nonono")
      (Or.inr ⟨rfl, rfl⟩)

/-- C8: in every state `getType` returns `float` for `math_single`,
`math_trig`, `math_constant`, `math_round` and `math_random_float`, `int` for
`math_modulo` and `math_random_int`, and `boolean` for `math_number_property`,
and it leaves the block as it was. -/
theorem getType_fixed (b : Block) :
    math_single.getType b = ("float", b) ∧
    math_trig.getType b = ("float", b) ∧
    math_constant.getType b = ("float", b) ∧
    math_round.getType b = ("float", b) ∧
    math_random_float.getType b = ("float", b) ∧
    math_modulo.getType b = ("int", b) ∧
    math_random_int.getType b = ("int", b) ∧
    math_number_property.getType b = ("boolean", b) :=
  ⟨rfl, rfl, rfl, rfl, rfl, rfl, rfl, rfl⟩

/-! ## The tooltip tables -/

theorem tableOf_keys (Msg : Messages) (refs : List (String × String)) :
    (tableOf Msg refs).map Prod.fst = refs.map Prod.fst := by
  simp [tableOf]

/-- A key of the table is found by the lookup, and the property read gives
the entry found. -/
theorem property_of_key (table : List (String × Option String)) (key : String)
    (h : key ∈ table.map Prod.fst) :
    table.lookup key = some (property table key) := by
  induction table with
  | nil => simp at h
  | cons e es ih =>
    obtain ⟨k, t⟩ := e
    by_cases hk : key = k
    · subst hk
      simp [property, List.lookup]
    · have hk' : (key == k) = false := by simpa using hk
      have h' : key ∈ es.map Prod.fst := by
        simpa [hk] using h
      have := ih h'
      simpa [property, List.lookup, hk'] using this

/-- With every referred message non-empty, the property read at a key of the
table is a non-empty string. -/
theorem property_tableOf_nonempty (Msg : Messages) (refs : List (String × String))
    (hmsg : ∀ r ∈ refs, ∃ m, Msg r.2 = some m ∧ m ≠ "") (key : String)
    (h : key ∈ refs.map Prod.fst) :
    ∃ m, property (tableOf Msg refs) key = some m ∧ m ≠ "" := by
  induction refs with
  | nil => simp at h
  | cons e es ih =>
    obtain ⟨k, r⟩ := e
    by_cases hk : key = k
    · subst hk
      obtain ⟨m, h1, h2⟩ := hmsg (key, r) (List.mem_cons_self _ _)
      exact ⟨m, by simpa [property, tableOf, List.lookup] using h1, h2⟩
    · have hk' : (key == k) = false := by simpa using hk
      have h' : key ∈ es.map Prod.fst := by
        simpa [hk] using h
      obtain ⟨m, h1, h2⟩ := ih (fun r hr => hmsg r (List.mem_cons_of_mem _ hr)) h'
      refine ⟨m, ?_, h2⟩
      simpa [property, tableOf, List.lookup, hk'] using h1

/-- The tooltip closure over a table, for a block whose mode is a key of the
table: the lookup finds the entry the closure returns, and the tooltip is a
non-empty string when every referred message is one. -/
theorem tooltipOf_total (Msg : Messages) (refs : List (String × String)) (b : Block)
    (mode : String) (hm : b.getFieldValue "OP" = some mode) (h : mode ∈ refs.map Prod.fst) :
    (tableOf Msg refs).lookup mode = some (tooltipOf (tableOf Msg refs) b) ∧
    ((∀ r ∈ refs, ∃ m, Msg r.2 = some m ∧ m ≠ "") →
      ∃ m, tooltipOf (tableOf Msg refs) b = some m ∧ m ≠ "") := by
  have hb : tooltipOf (tableOf Msg refs) b = property (tableOf Msg refs) mode := by
    simp [tooltipOf, hm, toStr]
  rw [hb]
  exact ⟨property_of_key _ _ (by rw [tableOf_keys]; exact h),
    fun hmsg => property_tableOf_nonempty Msg refs hmsg mode h⟩

/-- C7: for `math_arithmetic`, `math_single`, `math_trig` and `math_on_list` the
values of the options of the `OP` dropdown are exactly the keys of the table
`TOOLTIPS`; so for a block whose `OP` field holds one of the options the
lookup finds the entry of the mode, which is what the tooltip closure
returns, and with every message the table refers to a non-empty string the
tooltip is a non-empty string. -/
theorem tooltips_cover_modes (Msg : Messages) (b : Block) (mode : String)
    (hm : b.getFieldValue "OP" = some mode) :
    ((∀ k, k ∈ (math_arithmetic.OPERATORS Msg).map Prod.snd ↔
        k ∈ (math_arithmetic.TOOLTIPS Msg).map Prod.fst) ∧
      (mode ∈ (math_arithmetic.OPERATORS Msg).map Prod.snd →
        (math_arithmetic.TOOLTIPS Msg).lookup mode = some (math_arithmetic.tooltip Msg b) ∧
        ((∀ r ∈ math_arithmetic.TOOLTIP_MSG, ∃ m, Msg r.2 = some m ∧ m ≠ "") →
          ∃ m, math_arithmetic.tooltip Msg b = some m ∧ m ≠ ""))) ∧
    ((∀ k, k ∈ (math_single.OPERATORS Msg).map Prod.snd ↔
        k ∈ (math_single.TOOLTIPS Msg).map Prod.fst) ∧
      (mode ∈ (math_single.OPERATORS Msg).map Prod.snd →
        (math_single.TOOLTIPS Msg).lookup mode = some (math_single.tooltip Msg b) ∧
        ((∀ r ∈ math_single.TOOLTIP_MSG, ∃ m, Msg r.2 = some m ∧ m ≠ "") →
          ∃ m, math_single.tooltip Msg b = some m ∧ m ≠ ""))) ∧
    ((∀ k, k ∈ (math_trig.OPERATORS Msg).map Prod.snd ↔
        k ∈ (math_trig.TOOLTIPS Msg).map Prod.fst) ∧
      (mode ∈ (math_trig.OPERATORS Msg).map Prod.snd →
        (math_trig.TOOLTIPS Msg).lookup mode = some (math_trig.tooltip Msg b) ∧
        ((∀ r ∈ math_trig.TOOLTIP_MSG, ∃ m, Msg r.2 = some m ∧ m ≠ "") →
          ∃ m, math_trig.tooltip Msg b = some m ∧ m ≠ ""))) ∧
    ((∀ k, k ∈ (math_on_list.OPERATORS Msg).map Prod.snd ↔
        k ∈ (math_on_list.TOOLTIPS Msg).map Prod.fst) ∧
      (mode ∈ (math_on_list.OPERATORS Msg).map Prod.snd →
        (math_on_list.TOOLTIPS Msg).lookup mode = some (math_on_list.tooltip Msg b) ∧
        ((∀ r ∈ math_on_list.TOOLTIP_MSG, ∃ m, Msg r.2 = some m ∧ m ≠ "") →
          ∃ m, math_on_list.tooltip Msg b = some m ∧ m ≠ ""))) := by
  have e1 : (math_arithmetic.OPERATORS Msg).map Prod.snd =
      math_arithmetic.TOOLTIP_MSG.map Prod.fst := rfl
  have e2 : (math_single.OPERATORS Msg).map Prod.snd = math_single.TOOLTIP_MSG.map Prod.fst := rfl
  have e3 : (math_trig.OPERATORS Msg).map Prod.snd = math_trig.TOOLTIP_MSG.map Prod.fst := rfl
  have e4 : (math_on_list.OPERATORS Msg).map Prod.snd =
      math_on_list.TOOLTIP_MSG.map Prod.fst := rfl
  refine ⟨⟨?_, ?_⟩, ⟨?_, ?_⟩, ⟨?_, ?_⟩, ⟨?_, ?_⟩⟩
  · intro k
    rw [e1, math_arithmetic.TOOLTIPS, tableOf_keys]
  · intro h
    rw [e1] at h
    exact tooltipOf_total Msg math_arithmetic.TOOLTIP_MSG b mode hm h
  · intro k
    rw [e2, math_single.TOOLTIPS, tableOf_keys]
  · intro h
    rw [e2] at h
    exact tooltipOf_total Msg math_single.TOOLTIP_MSG b mode hm h
  · intro k
    rw [e3, math_trig.TOOLTIPS, tableOf_keys]
  · intro h
    rw [e3] at h
    exact tooltipOf_total Msg math_trig.TOOLTIP_MSG b mode hm h
  · intro k
    rw [e4, math_on_list.TOOLTIPS, tableOf_keys]
  · intro h
    rw [e4] at h
    exact tooltipOf_total Msg math_on_list.TOOLTIP_MSG b mode hm h

theorem tooltips_cover_modes_witness :
    (∃ m, math_arithmetic.tooltip keyMessages (modeBlock "ADD") = some m ∧ m ≠ "") ∧
    (∃ m, math_single.tooltip keyMessages (modeBlock "LOG10") = some m ∧ m ≠ "") ∧
    (∃ m, math_trig.tooltip keyMessages (modeBlock "ATAN") = some m ∧ m ≠ "") ∧
    (∃ m, math_on_list.tooltip keyMessages (modeBlock "STD_DEV") = some m ∧ m ≠ "") :=
  ⟨((tooltips_cover_modes keyMessages (modeBlock "ADD") "ADD" (by decide)).1.2
      (by decide)).2
      (fun r hr => ⟨r.2, rfl, (by decide : ∀ r ∈ math_arithmetic.TOOLTIP_MSG, r.2 ≠ "") r hr⟩),
   ((tooltips_cover_modes keyMessages (modeBlock "LOG10") "LOG10" (by decide)).2.1.2
      (by decide)).2
      (fun r hr => ⟨r.2, rfl, (by decide : ∀ r ∈ math_single.TOOLTIP_MSG, r.2 ≠ "") r hr⟩),
   ((tooltips_cover_modes keyMessages (modeBlock "ATAN") "ATAN" (by decide)).2.2.1.2
      (by decide)).2
      (fun r hr => ⟨r.2, rfl, (by decide : ∀ r ∈ math_trig.TOOLTIP_MSG, r.2 ≠ "") r hr⟩),
   ((tooltips_cover_modes keyMessages (modeBlock "STD_DEV") "STD_DEV" (by decide)).2.2.2.2
      (by decide)).2
      (fun r hr => ⟨r.2, rfl, (by decide : ∀ r ∈ math_on_list.TOOLTIP_MSG, r.2 ≠ "") r hr⟩)⟩
